import Mathlib

/-!
Verification of the session message cache and reply-chain enrichment logic of
the sanctuary chat panel (ChatMessageCache.ts and ResizableChatPanel.tsx).

Modelling conventions:
* Timestamps: JavaScript Date values and their ISO-8601 serializations are
  modelled by epoch milliseconds as Int.  Date.toISOString and new Date(iso)
  are mutually inverse on the values this code handles, so the string form is
  identified with its millisecond value.
* localStorage is an association list from keys to stored values.  A stored
  string is represented by the outcome of JSON.parse on it: StoredVal.invalid
  when parsing throws (or yields null, whose later field accesses throw), and
  StoredVal.obj o when it yields an object, with o restricted to the fields
  this module ever reads or writes (absent fields are none).
* The wall clock (Date.now and new Date()) is passed explicitly as now : Int
  to every operation that reads it.
* A throwing storage medium (quota errors and the like) is modelled in a
  second layer of definitions suffixed E, carrying fault flags in Except.
  The plain layer models the medium when its primitives do not throw.
-/

/-- Message kinds: the type field of a message (text, system, emoji-reaction, media). -/
inductive MsgType where
  | text
  | system
  | emojiReaction
  | media
deriving DecidableEq, Repr

/-- Denormalized snapshot of a reply target: the replyToMessage field shape. -/
structure ReplySnapshot where
  id : String
  senderAlias : String
  content : String
  timestamp : Int
deriving DecidableEq, Repr

/-- CachedMessage from ChatMessageCache.ts (its timestamp is a serialized string). -/
structure CachedMessage where
  id : String
  senderAlias : String
  senderAvatarIndex : Nat
  content : String
  timestamp : Int
  type : MsgType
  attachment : Option String
  replyTo : Option String
  replyToMessage : Option ReplySnapshot
deriving DecidableEq, Repr

/-- ChatMessage from ResizableChatPanel.tsx (its timestamp is a Date). -/
structure ChatMessage where
  id : String
  senderAlias : String
  senderAvatarIndex : Nat
  content : String
  timestamp : Int
  type : MsgType
  mentions : Option (List String)
  attachment : Option String
  replyTo : Option String
  replyToMessage : Option ReplySnapshot
deriving DecidableEq, Repr

/-- The participant moderation flags visible at the participant-state boundary. -/
structure PartState where
  isMuted : Option Bool
  isKicked : Option Bool
deriving DecidableEq, Repr

/-- A JSON object held in localStorage, restricted to the fields this module
reads or writes.  A field absent from the underlying object is none. -/
structure JsObj where
  sessionId : Option String := none
  messages : Option (List CachedMessage) := none
  lastUpdated : Option Int := none
  isMuted : Option Bool := none
  isKicked : Option Bool := none
deriving DecidableEq, Repr

/-- A stored string as seen through JSON.parse. -/
inductive StoredVal where
  | invalid
  | obj (o : JsObj)
deriving DecidableEq, Repr

/-- The localStorage medium: an association list from keys to stored values. -/
abbrev Storage := List (String × StoredVal)

/-- localStorage.getItem. -/
def storageGet (st : Storage) (k : String) : Option StoredVal :=
  (st.find? (fun e => e.1 == k)).map (fun e => e.2)

/-- localStorage.setItem: replace in place, or append a fresh key. -/
def storageSet : Storage → String → StoredVal → Storage
  | [], k, v => [(k, v)]
  | e :: es, k, v => if e.1 == k then (k, v) :: es else e :: storageSet es k v

/-- localStorage.removeItem: delete the entry stored under the key. -/
def storageRemove : Storage → String → Storage
  | [], _ => []
  | e :: es, k => if e.1 == k then storageRemove es k else e :: storageRemove es k

/-- Object.keys(localStorage). -/
def storageKeys (st : Storage) : List String := st.map (fun e => e.1)

/-- The CACHE_KEY_PREFIX constant of ChatMessageCacheManager. -/
def CACHE_NS : String := "chat_messages_"

/-- The CACHE_EXPIRY constant: 24 hours in milliseconds. -/
def CACHE_EXPIRY : Int := 24 * 60 * 60 * 1000

/-- The inline participant-state expiry: 1 hour in milliseconds. -/
def PART_EXPIRY : Int := 60 * 60 * 1000

/-- getCacheKey. -/
def getCacheKey (sessionId : String) : String := CACHE_NS ++ sessionId

/-- The participant-state key template of ChatMessageCacheManager. -/
def stateKey (sessionId participantId : String) : String :=
  "participant_state_" ++ sessionId ++ "_" ++ participantId

/-- clearMessages: unconditional removal of the session record. -/
def clearMessages (st : Storage) (sessionId : String) : Storage :=
  storageRemove st (getCacheKey sessionId)

/-- saveMessages: overwrite the record with the given messages and a fresh timestamp. -/
def saveMessages (now : Int) (st : Storage) (sessionId : String)
    (messages : List CachedMessage) : Storage :=
  storageSet st (getCacheKey sessionId)
    (StoredVal.obj
      { sessionId := some sessionId, messages := some messages, lastUpdated := some now })

/-- loadMessages: returns the cached list together with the possibly updated
storage, since an expired record is lazily deleted on read.  A record whose
lastUpdated is missing or unparseable has NaN age, and the expiry comparison
on NaN is false, so it is served rather than expired. -/
def loadMessages (now : Int) (st : Storage) (sessionId : String) :
    List CachedMessage × Storage :=
  match storageGet st (getCacheKey sessionId) with
  | none => ([], st)
  | some StoredVal.invalid => ([], st)
  | some (StoredVal.obj o) =>
    match o.lastUpdated with
    | some t =>
      if now - t > CACHE_EXPIRY then ([], clearMessages st sessionId)
      else (o.messages.getD [], st)
    | none => (o.messages.getD [], st)

/-- addMessage: load, and append plus save only when no loaded message shares the id. -/
def addMessage (now : Int) (st : Storage) (sessionId : String) (message : CachedMessage) :
    Storage :=
  let res := loadMessages now st sessionId
  if res.1.any (fun m => m.id == message.id) then res.2
  else saveMessages now res.2 sessionId (res.1 ++ [message])

/-- Object spread left to right: a field present in the update wins, otherwise
the current value stays. -/
def mergeOpt (newv old : Option Bool) : Option Bool :=
  match newv with
  | some b => some b
  | none => old

/-- updateParticipantState: merge the partial flags over the freshly loaded
state (defaulting to an empty object) and persist with a fresh timestamp.
When the stored payload does not parse, the thrown error is caught and the
write is skipped. -/
def updateParticipantState (now : Int) (st : Storage) (sessionId participantId : String)
    (state : PartState) : Storage :=
  match storageGet st (stateKey sessionId participantId) with
  | some StoredVal.invalid => st
  | some (StoredVal.obj o) =>
    storageSet st (stateKey sessionId participantId)
      (StoredVal.obj
        { o with
          isMuted := mergeOpt state.isMuted o.isMuted,
          isKicked := mergeOpt state.isKicked o.isKicked,
          lastUpdated := some now })
  | none =>
    storageSet st (stateKey sessionId participantId)
      (StoredVal.obj
        { isMuted := state.isMuted, isKicked := state.isKicked, lastUpdated := some now })

/-- getParticipantState: empty state when absent or unparsable; a record older
than one hour (with a missing lastUpdated read as 0) is deleted and reported
empty; otherwise the stored flags are returned. -/
def getParticipantState (now : Int) (st : Storage) (sessionId participantId : String) :
    PartState × Storage :=
  match storageGet st (stateKey sessionId participantId) with
  | none => (⟨none, none⟩, st)
  | some StoredVal.invalid => (⟨none, none⟩, st)
  | some (StoredVal.obj o) =>
    if now - o.lastUpdated.getD 0 > PART_EXPIRY then
      (⟨none, none⟩, storageRemove st (stateKey sessionId participantId))
    else (⟨o.isMuted, o.isKicked⟩, st)

/-- key.startsWith(ns), modelled on the character lists of the strings so that
it evaluates; String.startsWith agrees with prefix-of on the characters. -/
def strStarts (s p : String) : Bool := p.data.isPrefixOf s.data

/-- clearAllCache: snapshot the keys, keep those under the namespace, remove each. -/
def clearAllCache (st : Storage) : Storage :=
  ((storageKeys st).filter (fun k => strStarts k CACHE_NS)).foldl storageRemove st

/-- Fault model for a throwing storage medium: which primitive throws. -/
structure Faults where
  getFails : Bool
  setFails : Bool
  removeFails : Bool
deriving DecidableEq, Repr

/-- The all-good medium. -/
def noFaults : Faults := ⟨false, false, false⟩

def getItemE (f : Faults) (st : Storage) (k : String) : Except Unit (Option StoredVal) :=
  if f.getFails then Except.error () else Except.ok (storageGet st k)

def setItemE (f : Faults) (st : Storage) (k : String) (v : StoredVal) : Except Unit Storage :=
  if f.setFails then Except.error () else Except.ok (storageSet st k v)

def removeItemE (f : Faults) (st : Storage) (k : String) : Except Unit Storage :=
  if f.removeFails then Except.error () else Except.ok (storageRemove st k)

/-- A try/catch block with a default result: the catch arm of the source logs
a warning and falls back. -/
def tryD {α : Type} (d : α) : Except Unit α → α
  | Except.error _ => d
  | Except.ok a => a

/-- saveMessages over the throwing medium: the whole body sits in try/catch. -/
def saveMessagesE (f : Faults) (now : Int) (st : Storage) (sessionId : String)
    (messages : List CachedMessage) : Except Unit Storage :=
  Except.ok (tryD st
    (setItemE f st (getCacheKey sessionId)
      (StoredVal.obj
        { sessionId := some sessionId, messages := some messages, lastUpdated := some now })))

/-- loadMessages over the throwing medium: the whole body, including the lazy
delete of an expired record, sits in try/catch. -/
def loadMessagesE (f : Faults) (now : Int) (st : Storage) (sessionId : String) :
    Except Unit (List CachedMessage × Storage) :=
  Except.ok (tryD ([], st) (do
    let v ← getItemE f st (getCacheKey sessionId)
    match v with
    | none => pure ([], st)
    | some StoredVal.invalid => Except.error ()
    | some (StoredVal.obj o) =>
      match o.lastUpdated with
      | some t =>
        if now - t > CACHE_EXPIRY then do
          let stR ← removeItemE f st (getCacheKey sessionId)
          pure ([], stR)
        else pure (o.messages.getD [], st)
      | none => pure (o.messages.getD [], st)))

/-- addMessage over the throwing medium: no handler of its own, both callees
handle their failures internally. -/
def addMessageE (f : Faults) (now : Int) (st : Storage) (sessionId : String)
    (message : CachedMessage) : Except Unit Storage := do
  let res ← loadMessagesE f now st sessionId
  if res.1.any (fun m => m.id == message.id) then pure res.2
  else saveMessagesE f now res.2 sessionId (res.1 ++ [message])

/-- updateParticipantState over the throwing medium: body in try/catch. -/
def updateParticipantStateE (f : Faults) (now : Int) (st : Storage)
    (sessionId participantId : String) (state : PartState) : Except Unit Storage :=
  Except.ok (tryD st (do
    let v ← getItemE f st (stateKey sessionId participantId)
    match v with
    | some StoredVal.invalid => Except.error ()
    | some (StoredVal.obj o) =>
      setItemE f st (stateKey sessionId participantId)
        (StoredVal.obj
          { o with
            isMuted := mergeOpt state.isMuted o.isMuted,
            isKicked := mergeOpt state.isKicked o.isKicked,
            lastUpdated := some now })
    | none =>
      setItemE f st (stateKey sessionId participantId)
        (StoredVal.obj
          { isMuted := state.isMuted, isKicked := state.isKicked,
            lastUpdated := some now })))

/-- getParticipantState over the throwing medium: body in try/catch. -/
def getParticipantStateE (f : Faults) (now : Int) (st : Storage)
    (sessionId participantId : String) : Except Unit (PartState × Storage) :=
  Except.ok (tryD (⟨none, none⟩, st) (do
    let v ← getItemE f st (stateKey sessionId participantId)
    match v with
    | none => pure ((⟨none, none⟩ : PartState), st)
    | some StoredVal.invalid => Except.error ()
    | some (StoredVal.obj o) =>
      if now - o.lastUpdated.getD 0 > PART_EXPIRY then do
        let stR ← removeItemE f st (stateKey sessionId participantId)
        pure ((⟨none, none⟩ : PartState), stR)
      else pure ((⟨o.isMuted, o.isKicked⟩ : PartState), st)))

/-- clearMessages over the throwing medium: the source has no handler here. -/
def clearMessagesE (f : Faults) (st : Storage) (sessionId : String) : Except Unit Storage :=
  removeItemE f st (getCacheKey sessionId)

/-- clearAllCache over the throwing medium: the source has no handler here. -/
def clearAllCacheE (f : Faults) (st : Storage) : Except Unit Storage :=
  ((storageKeys st).filter (fun k => strStarts k CACHE_NS)).foldlM (removeItemE f) st

/-- Whether an Except value is a success. -/
def exOk {α : Type} : Except Unit α → Bool
  | Except.ok _ => true
  | Except.error _ => false

/-- Conversion applied to each cached message pulled into the live list:
an object spread plus the timestamp parsed back into a Date.  The cached
message carries no mentions field, so the spread leaves it absent. -/
def cachedToChat (c : CachedMessage) : ChatMessage :=
  { id := c.id, senderAlias := c.senderAlias, senderAvatarIndex := c.senderAvatarIndex,
    content := c.content, timestamp := c.timestamp, type := c.type,
    mentions := none, attachment := c.attachment,
    replyTo := c.replyTo, replyToMessage := c.replyToMessage }

/-- Union step of the enrichment pass: start from the live list and append
each cached message whose id is not yet present in the growing list. -/
def unionMessages : List ChatMessage → List CachedMessage → List ChatMessage
  | acc, [] => acc
  | acc, c :: cs =>
    unionMessages (if acc.any (fun m => m.id == c.id) then acc else acc ++ [cachedToChat c]) cs

/-- messageMap lookup: the map is filled left to right with set, so a later
message with the same id overwrites an earlier one; lookup therefore returns
the last matching element. -/
def mapGet (all : List ChatMessage) (k : String) : Option ChatMessage :=
  all.reverse.find? (fun m => m.id == k)

/-- The snapshot built from a resolved reply target. -/
def mkSnapshot (t : ChatMessage) : ReplySnapshot :=
  ⟨t.id, t.senderAlias, t.content, t.timestamp⟩

/-- Link-resolution step for one message: the source condition tests the
truthiness of replyTo, so an empty-string reference is never looked up; an
unresolved or absent reference leaves the message untouched. -/
def enhanceMsg (all : List ChatMessage) (m : ChatMessage) : ChatMessage :=
  match m.replyTo with
  | none => m
  | some r =>
    if r = "" then m
    else
      match mapGet all r with
      | none => m
      | some t => { m with replyToMessage := some (mkSnapshot t) }

/-- Comparator of the sort step: ascending timestamps. -/
def leTs (a b : ChatMessage) : Prop := a.timestamp ≤ b.timestamp

instance : DecidableRel leTs :=
  fun a b => inferInstanceAs (Decidable (a.timestamp ≤ b.timestamp))

instance : IsTotal ChatMessage leTs := ⟨fun a b => Int.le_total a.timestamp b.timestamp⟩

instance : IsTrans ChatMessage leTs := ⟨fun _ _ _ h h2 => le_trans h h2⟩

/-- The enrichment pass of ResizableChatPanel: union, index, link resolution,
then a stable ascending sort by timestamp (Array.prototype.sort is stable, and
insertion sort realizes the same stable order). -/
def enrich (messages : List ChatMessage) (cachedMessages : List CachedMessage) :
    List ChatMessage :=
  let allMessages := unionMessages messages cachedMessages
  List.insertionSort leTs (allMessages.map (enhanceMsg allMessages))

/-- The ids of a message list. -/
def msgIds (l : List ChatMessage) : List String := l.map (fun m => m.id)

/-- The ids of a cached-message list. -/
def cachedIds (l : List CachedMessage) : List String := l.map (fun c => c.id)

/-- A message with its derived snapshot field erased. -/
def stripSnap (m : ChatMessage) : ChatMessage := { m with replyToMessage := none }

/-- Concrete message builder used only for witness and counterexample inputs. -/
def mkMsg (i s c : String) (ts : Int) : ChatMessage :=
  { id := i, senderAlias := s, senderAvatarIndex := 1, content := c, timestamp := ts,
    type := MsgType.text, mentions := none, attachment := none,
    replyTo := none, replyToMessage := none }

/-- Concrete cached-message builder used only for witness and counterexample inputs. -/
def mkCached (i s c : String) (ts : Int) : CachedMessage :=
  { id := i, senderAlias := s, senderAvatarIndex := 1, content := c, timestamp := ts,
    type := MsgType.text, attachment := none, replyTo := none, replyToMessage := none }


theorem storageGet_cons (e : String × StoredVal) (es : Storage) (k : String) :
    storageGet (e :: es) k = if e.1 == k then some e.2 else storageGet es k := by
  cases h : (e.1 == k) <;> simp [storageGet, List.find?_cons, h]

theorem storageGet_set_self (st : Storage) (k : String) (v : StoredVal) :
    storageGet (storageSet st k v) k = some v := by
  induction st with
  | nil => simp [storageSet, storageGet, List.find?]
  | cons e es ih =>
    cases h : (e.1 == k) with
    | true => simp [storageSet, h, storageGet_cons]
    | false => simp [storageSet, h, storageGet_cons, ih]

theorem storageGet_remove (st : Storage) (k j : String) :
    storageGet (storageRemove st k) j = if j = k then none else storageGet st j := by
  induction st with
  | nil => simp [storageRemove, storageGet, List.find?]
  | cons e es ih =>
    by_cases hek : e.1 = k
    · have h1 : (e.1 == k) = true := beq_iff_eq.mpr hek
      rw [show storageRemove (e :: es) k = storageRemove es k by simp [storageRemove, h1]]
      rw [ih]
      by_cases hjk : j = k
      · simp [hjk]
      · have hej : (e.1 == j) = false := by
          apply beq_eq_false_iff_ne.mpr
          rw [hek]
          exact fun h => hjk h.symm
        simp [hjk, storageGet_cons, hej]
    · have h1 : (e.1 == k) = false := beq_eq_false_iff_ne.mpr hek
      rw [show storageRemove (e :: es) k = e :: storageRemove es k by simp [storageRemove, h1]]
      rw [storageGet_cons, storageGet_cons, ih]
      by_cases hjk : j = k
      · have hej : (e.1 == j) = false := by
          apply beq_eq_false_iff_ne.mpr
          rw [hjk]
          exact hek
        simp [hjk, hej, hek]
      · simp [hjk]

theorem storageGet_none_of_not_mem (st : Storage) (k : String) :
    k ∉ storageKeys st → storageGet st k = none := by
  induction st with
  | nil => intro _; rfl
  | cons e es ih =>
    intro h
    simp only [storageKeys, List.map_cons, List.mem_cons, not_or] at h
    have h1 : (e.1 == k) = false := beq_eq_false_iff_ne.mpr (fun he => h.1 he.symm)
    rw [storageGet_cons]
    simp only [h1, if_false]
    exact ih (by simpa [storageKeys] using h.2)

theorem storageGet_foldl_remove (ks : List String) (st : Storage) (j : String) :
    storageGet (ks.foldl storageRemove st) j = if j ∈ ks then none else storageGet st j := by
  induction ks generalizing st with
  | nil => simp
  | cons k ks ih =>
    rw [List.foldl_cons, ih, storageGet_remove]
    by_cases h1 : j ∈ ks
    · simp [h1]
    · by_cases h2 : j = k <;> simp [h1, h2]

/-- Claim C3: loadMessages returns the empty sequence when no record exists,
when the stored payload does not parse as the expected shape, or when the
record age exceeds the 24-hour retention window, in which case the record is
also deleted, so a subsequent read of the key finds nothing; otherwise it
returns the stored messages field verbatim, a missing field reading as the
empty sequence. -/
theorem claim_C3_load_contract (st : Storage) (sid : String) (now : Int) :
    (storageGet st (getCacheKey sid) = none → loadMessages now st sid = ([], st)) ∧
    (storageGet st (getCacheKey sid) = some StoredVal.invalid →
      loadMessages now st sid = ([], st)) ∧
    (∀ o : JsObj, storageGet st (getCacheKey sid) = some (StoredVal.obj o) →
      (∀ t : Int, o.lastUpdated = some t → now - t > CACHE_EXPIRY →
        (loadMessages now st sid).1 = [] ∧
        storageGet (loadMessages now st sid).2 (getCacheKey sid) = none) ∧
      (∀ t : Int, o.lastUpdated = some t → now - t ≤ CACHE_EXPIRY →
        loadMessages now st sid = (o.messages.getD [], st)) ∧
      (o.lastUpdated = none → loadMessages now st sid = (o.messages.getD [], st))) := by
  refine ⟨?_, ?_, ?_⟩
  · intro h
    simp [loadMessages, h]
  · intro h
    simp [loadMessages, h]
  · intro o h
    refine ⟨?_, ?_, ?_⟩
    · intro t ht hexp
      simp [loadMessages, h, ht, hexp, clearMessages, storageGet_remove]
    · intro t ht hfresh
      have hne : ¬ (now - t > CACHE_EXPIRY) := not_lt.mpr hfresh
      simp [loadMessages, h, ht, hne]
    · intro ht
      simp [loadMessages, h, ht]

/-- Concrete storage for the C3 witness: one record saved at time 0. -/
def c3st : Storage :=
  [(getCacheKey ("s"),
    StoredVal.obj { messages := some [mkCached ("m1") ("a") ("hi") 0], lastUpdated := some 0 })]

/-- Witness for C3: at 25 hours the record reads empty and is deleted. -/
theorem claim_C3_load_contract_witness :
    (loadMessages (25 * 3600000) c3st ("s")).1 = [] ∧
    storageGet (loadMessages (25 * 3600000) c3st ("s")).2 (getCacheKey ("s")) = none :=
  ((claim_C3_load_contract c3st ("s") (25 * 3600000)).2.2
    { messages := some [mkCached ("m1") ("a") ("hi") 0], lastUpdated := some 0 }
    rfl).1 0 rfl (by decide)

/-- Claim C9: clearAllCache removes exactly the keys under the chat-message
namespace; the value stored under every key outside the namespace is
preserved. -/
theorem claim_C9_namespace_isolation (st : Storage) (k : String) :
    (strStarts k CACHE_NS = true → storageGet (clearAllCache st) k = none) ∧
    (strStarts k CACHE_NS = false → storageGet (clearAllCache st) k = storageGet st k) := by
  constructor
  · intro h
    unfold clearAllCache
    rw [storageGet_foldl_remove]
    by_cases hm : k ∈ (storageKeys st).filter (fun x => strStarts x CACHE_NS)
    · simp [hm]
    · have hk : k ∉ storageKeys st := fun hks => hm (List.mem_filter.mpr ⟨hks, h⟩)
      simp [hm, storageGet_none_of_not_mem st k hk]
  · intro h
    unfold clearAllCache
    rw [storageGet_foldl_remove]
    have hm : k ∉ (storageKeys st).filter (fun x => strStarts x CACHE_NS) := by
      intro hk
      have htrue := (List.mem_filter.mp hk).2
      rw [h] at htrue
      exact Bool.false_ne_true htrue
    simp [hm]

/-- Unrelated value stored next to the namespace in the C9 witness. -/
def c9v : StoredVal := StoredVal.obj { isMuted := some true }

/-- Concrete storage for the C9 witness: one namespaced record, one unrelated key. -/
def c9st : Storage := [(getCacheKey ("s"), StoredVal.invalid), (("other_app_setting"), c9v)]

/-- Witness for C9: the unrelated key keeps its value, the namespaced key is gone. -/
theorem claim_C9_namespace_isolation_witness :
    storageGet (clearAllCache c9st) ("other_app_setting") = some c9v ∧
    storageGet (clearAllCache c9st) (getCacheKey ("s")) = none := by
  constructor
  · rw [(claim_C9_namespace_isolation c9st ("other_app_setting")).2 (by decide)]
    rfl
  · exact (claim_C9_namespace_isolation c9st (getCacheKey ("s"))).1 (by decide)

/-- Claim C10, amended: when a stored participant-state record lacks the
lastUpdated field, its age is computed against 0, so for any clock strictly
more than one hour past the epoch the record is treated as expired, deleted,
and the empty state is returned regardless of the flags it holds. -/
theorem claim_C10_missing_timestamp (st : Storage) (sid pid : String) (now : Int)
    (o : JsObj) :
    storageGet st (stateKey sid pid) = some (StoredVal.obj o) →
    o.lastUpdated = none →
    PART_EXPIRY < now →
    (getParticipantState now st sid pid).1 = ⟨none, none⟩ ∧
    storageGet (getParticipantState now st sid pid).2 (stateKey sid pid) = none := by
  intro h ho hnow
  have hcond : now - (o.lastUpdated.getD 0) > PART_EXPIRY := by
    rw [ho]
    simpa using hnow
  simp [getParticipantState, h, hcond, storageGet_remove]

/-- Concrete storage for C10: a flagged record with no lastUpdated field. -/
def c10st : Storage := [(stateKey ("s") ("p"), StoredVal.obj { isMuted := some true })]

/-- Witness for C10: one millisecond past the hour the record expires. -/
theorem claim_C10_missing_timestamp_witness :
    (getParticipantState 3600001 c10st ("s") ("p")).1 = ⟨none, none⟩ ∧
    storageGet (getParticipantState 3600001 c10st ("s") ("p")).2 (stateKey ("s") ("p")) =
      none :=
  claim_C10_missing_timestamp c10st ("s") ("p") 3600001 { isMuted := some true }
    rfl rfl (by decide)

/-- Counterexample for C10 as stated: at exactly one hour past the epoch,
which is a clock at least one hour past the epoch, the record is served with
its flags and is not deleted. -/
theorem claim_C10_missing_timestamp_counterexample :
    (getParticipantState 3600000 c10st ("s") ("p")).1 = ⟨some true, none⟩ ∧
    (getParticipantState 3600000 c10st ("s") ("p")).2 = c10st ∧
    (getParticipantState 3600000 c10st ("s") ("p")).1 ≠ ⟨none, none⟩ := by
  refine ⟨rfl, rfl, ?_⟩
  decide

/-- Claim C7: merging one flag and then the other leaves both flags set, as
observed by a read within the retention window; the second merge overlays the
first rather than replacing it.  The initial value stored under the key, when
present, must be a parseable object, since a parse failure makes the update a
silent no-op. -/
theorem claim_C7_participant_merge (st : Storage) (sid pid : String) (t1 t2 t3 : Int) :
    storageGet st (stateKey sid pid) ≠ some StoredVal.invalid →
    t3 - t2 ≤ PART_EXPIRY →
    (getParticipantState t3
      (updateParticipantState t2
        (updateParticipantState t1 st sid pid ⟨some true, none⟩)
        sid pid ⟨none, some true⟩)
      sid pid).1 = ⟨some true, some true⟩ := by
  intro hv ht
  have hfresh : ¬ (t3 - t2 > PART_EXPIRY) := not_lt.mpr ht
  cases h : storageGet st (stateKey sid pid) with
  | none =>
    simp [updateParticipantState, h, mergeOpt, storageGet_set_self, getParticipantState,
      hfresh]
  | some v =>
    cases v with
    | invalid => exact absurd h hv
    | obj o =>
      simp [updateParticipantState, h, mergeOpt, storageGet_set_self, getParticipantState,
        hfresh]

/-- Witness for C7 on an empty storage with all calls at time 0. -/
theorem claim_C7_participant_merge_witness :
    (getParticipantState 0
      (updateParticipantState 0
        (updateParticipantState 0 [] ("s") ("p") ⟨some true, none⟩)
        ("s") ("p") ⟨none, some true⟩)
      ("s") ("p")).1 = ⟨some true, some true⟩ :=
  claim_C7_participant_merge [] ("s") ("p") 0 0 0 (by decide) (by decide)

theorem load_after_save (now : Int) (st : Storage) (sid : String)
    (ms : List CachedMessage) :
    loadMessages now (saveMessages now st sid ms) sid = (ms, saveMessages now st sid ms) := by
  have hfresh : ¬ (now - now > CACHE_EXPIRY) := by
    simp only [CACHE_EXPIRY, gt_iff_lt]
    omega
  simp [loadMessages, saveMessages, storageGet_set_self, hfresh]
  intro h
  exact absurd h (by decide)

theorem load_fst_ne_nil_snd (now : Int) (st : Storage) (sid : String) :
    (loadMessages now st sid).1 ≠ [] → (loadMessages now st sid).2 = st := by
  cases h : storageGet st (getCacheKey sid) with
  | none => intro _; simp [loadMessages, h]
  | some v =>
    cases v with
    | invalid => intro _; simp [loadMessages, h]
    | obj o =>
      cases hl : o.lastUpdated with
      | none => intro _; simp [loadMessages, h, hl]
      | some t =>
        by_cases hexp : now - t > CACHE_EXPIRY
        · intro hne
          exfalso
          apply hne
          simp [loadMessages, h, hl, hexp]
        · intro _
          simp [loadMessages, h, hl, hexp]

/-- Claim C4: adding the same message twice in immediate succession leaves
exactly the storage of a single add, and the stored sequence read back after
an add is unchanged when some stored message already carries the id, and is
the old sequence with the message appended otherwise. -/
theorem claim_C4_add_idempotent (now : Int) (st : Storage) (sid : String)
    (m : CachedMessage) :
    addMessage now (addMessage now st sid m) sid m = addMessage now st sid m ∧
    (loadMessages now (addMessage now st sid m) sid).1 =
      (if (loadMessages now st sid).1.any (fun x => x.id == m.id)
       then (loadMessages now st sid).1
       else (loadMessages now st sid).1 ++ [m]) := by
  cases hA : (loadMessages now st sid).1.any (fun x => x.id == m.id) with
  | true =>
    have hne : (loadMessages now st sid).1 ≠ [] := by
      intro hnil
      rw [hnil] at hA
      simp at hA
    have hsnd := load_fst_ne_nil_snd now st sid hne
    have hadd : addMessage now st sid m = st := by
      simp [addMessage, hA, hsnd]
    constructor
    · rw [hadd]
      exact hadd
    · rw [hadd]
      simp
  | false =>
    have hadd : addMessage now st sid m =
        saveMessages now (loadMessages now st sid).2 sid
          ((loadMessages now st sid).1 ++ [m]) := by
      simp [addMessage, hA]
    constructor
    · rw [hadd]
      simp [addMessage, load_after_save, List.any_append]
    · rw [hadd, load_after_save]
      simp [hA]

theorem exOk_bind {α β : Type} (a : α) (g : α → Except Unit β)
    (h : ∀ x, exOk (g x) = true) : exOk (Except.ok a >>= g) = true := by
  have hb : (Except.ok a >>= g) = g a := rfl
  rw [hb]
  exact h a

theorem foldlM_remove_ok (f : Faults) (h : f.removeFails = false) (ks : List String) :
    ∀ st : Storage, exOk (ks.foldlM (removeItemE f) st) = true := by
  induction ks with
  | nil => intro st; rfl
  | cons k ks ih =>
    intro st
    rw [List.foldlM_cons]
    have hr : removeItemE f st k = Except.ok (storageRemove st k) := by
      simp [removeItemE, h]
    rw [hr]
    exact exOk_bind _ _ (fun s => ih s)

/-- Claim C8, amended: load, save, add, updateParticipantState and
getParticipantState never raise past their boundary, for every input and
every fault pattern of the storage medium, because each wraps its body in a
handler; clearMessages and clearAllCache have no handler and raise exactly
when a removal primitive throws, so they are exception-free only when the
medium does not throw on removal. -/
theorem claim_C8_no_throw (f : Faults) (st : Storage) (now : Int) (sid pid : String)
    (msgs : List CachedMessage) (m : CachedMessage) (p : PartState) :
    exOk (loadMessagesE f now st sid) = true ∧
    exOk (saveMessagesE f now st sid msgs) = true ∧
    exOk (addMessageE f now st sid m) = true ∧
    exOk (updateParticipantStateE f now st sid pid p) = true ∧
    exOk (getParticipantStateE f now st sid pid) = true ∧
    (f.removeFails = false → exOk (clearMessagesE f st sid) = true) ∧
    (f.removeFails = false → exOk (clearAllCacheE f st) = true) := by
  refine ⟨rfl, rfl, ?_, rfl, rfl, ?_, ?_⟩
  · show exOk (loadMessagesE f now st sid >>= _) = true
    rw [show loadMessagesE f now st sid = Except.ok
      (tryD ([], st) (do
        let v ← getItemE f st (getCacheKey sid)
        match v with
        | none => pure ([], st)
        | some StoredVal.invalid => Except.error ()
        | some (StoredVal.obj o) =>
          match o.lastUpdated with
          | some t =>
            if now - t > CACHE_EXPIRY then do
              let stR ← removeItemE f st (getCacheKey sid)
              pure ([], stR)
            else pure (o.messages.getD [], st)
          | none => pure (o.messages.getD [], st))) from rfl]
    apply exOk_bind
    intro x
    by_cases hc : (x.1.any (fun q => q.id == m.id)) = true
    · simp [hc]
      rfl
    · simp [hc]
      rfl
  · intro h
    simp [clearMessagesE, removeItemE, h, exOk]
  · intro h
    exact foldlM_remove_ok f h _ st

/-- Concrete message for the C8 witness. -/
def c8m : CachedMessage := mkCached ("m1") ("a") ("hi") 0

/-- Concrete partial state for the C8 witness. -/
def c8p : PartState := ⟨some true, none⟩

/-- Witness for C8 on a fault-free medium. -/
theorem claim_C8_no_throw_witness :
    exOk (clearMessagesE noFaults [] ("s")) = true ∧
    exOk (clearAllCacheE noFaults []) = true :=
  ⟨(claim_C8_no_throw noFaults [] 0 ("s") ("p") [] c8m c8p).2.2.2.2.2.1 rfl,
   (claim_C8_no_throw noFaults [] 0 ("s") ("p") [] c8m c8p).2.2.2.2.2.2 rfl⟩

/-- The medium whose removal primitive throws, for the C8 counterexample. -/
def c8faults : Faults := ⟨false, false, true⟩

/-- Counterexample for C8 as stated: when the medium throws on removal,
clearMessages propagates the exception to its caller. -/
theorem claim_C8_no_throw_counterexample :
    exOk (clearMessagesE c8faults [] ("s")) = false := rfl

theorem cachedToChat_id (c : CachedMessage) : (cachedToChat c).id = c.id := rfl

theorem enhanceMsg_eq (u : List ChatMessage) (m : ChatMessage) :
    enhanceMsg u m = m ∨
    ∃ r t, m.replyTo = some r ∧ r ≠ "" ∧ mapGet u r = some t ∧
      enhanceMsg u m = { m with replyToMessage := some (mkSnapshot t) } := by
  unfold enhanceMsg
  cases hR : m.replyTo with
  | none => exact Or.inl rfl
  | some r =>
    by_cases hr : r = ""
    · simp [hr]
    · cases hm : mapGet u r with
      | none => simp [hr, hm]
      | some t =>
        right
        exact ⟨r, t, rfl, hr, hm, by simp [hr, hm]⟩

theorem enhanceMsg_id (u : List ChatMessage) (m : ChatMessage) :
    (enhanceMsg u m).id = m.id := by
  rcases enhanceMsg_eq u m with h | ⟨r, t, _, _, _, h⟩ <;> rw [h]

theorem enhanceMsg_timestamp (u : List ChatMessage) (m : ChatMessage) :
    (enhanceMsg u m).timestamp = m.timestamp := by
  rcases enhanceMsg_eq u m with h | ⟨r, t, _, _, _, h⟩ <;> rw [h]

theorem enhanceMsg_replyTo (u : List ChatMessage) (m : ChatMessage) :
    (enhanceMsg u m).replyTo = m.replyTo := by
  rcases enhanceMsg_eq u m with h | ⟨r, t, _, _, _, h⟩ <;> rw [h]

theorem enhanceMsg_senderAlias (u : List ChatMessage) (m : ChatMessage) :
    (enhanceMsg u m).senderAlias = m.senderAlias := by
  rcases enhanceMsg_eq u m with h | ⟨r, t, _, _, _, h⟩ <;> rw [h]

theorem enhanceMsg_content (u : List ChatMessage) (m : ChatMessage) :
    (enhanceMsg u m).content = m.content := by
  rcases enhanceMsg_eq u m with h | ⟨r, t, _, _, _, h⟩ <;> rw [h]

theorem stripSnap_enhanceMsg (u : List ChatMessage) (m : ChatMessage) :
    stripSnap (enhanceMsg u m) = stripSnap m := by
  rcases enhanceMsg_eq u m with h | ⟨r, t, _, _, _, h⟩
  · rw [h]
  · rw [h]
    rfl

theorem mapGet_eq_none_iff (l : List ChatMessage) (k : String) :
    mapGet l k = none ↔ ∀ x ∈ l, x.id ≠ k := by
  simp [mapGet, List.find?_eq_none, List.mem_reverse]

theorem mapGet_some_mem {l : List ChatMessage} {k : String} {x : ChatMessage}
    (h : mapGet l k = some x) : x ∈ l ∧ x.id = k := by
  unfold mapGet at h
  have hp := List.find?_some h
  exact ⟨List.mem_reverse.mp (List.mem_of_find?_eq_some h), beq_iff_eq.mp hp⟩

theorem mapGet_ne_none {l : List ChatMessage} {k : String} {x : ChatMessage}
    (hx : x ∈ l) (hk : x.id = k) : mapGet l k ≠ none := by
  intro h
  exact (mapGet_eq_none_iff l k).mp h x hx hk

theorem mapGet_of_nodup {l : List ChatMessage} {k : String} {x : ChatMessage}
    (hnd : (msgIds l).Nodup) (hx : x ∈ l) (hk : x.id = k) : mapGet l k = some x := by
  cases hm : mapGet l k with
  | none => exact absurd hm (mapGet_ne_none hx hk)
  | some y =>
    obtain ⟨hy, hyk⟩ := mapGet_some_mem hm
    have hxy : y = x :=
      List.inj_on_of_nodup_map (by simpa [msgIds] using hnd) hy hx (hyk.trans hk.symm)
    rw [hxy]

theorem unionMessages_exists_rest (cached : List CachedMessage) :
    ∀ acc : List ChatMessage, ∃ r, unionMessages acc cached = acc ++ r := by
  induction cached with
  | nil =>
    intro acc
    exact ⟨[], by simp [unionMessages]⟩
  | cons c cs ih =>
    intro acc
    by_cases h : (acc.any (fun m => m.id == c.id)) = true
    · obtain ⟨r, hr⟩ := ih acc
      refine ⟨r, ?_⟩
      simp only [unionMessages]
      rw [if_pos h, hr]
    · obtain ⟨r, hr⟩ := ih (acc ++ [cachedToChat c])
      refine ⟨[cachedToChat c] ++ r, ?_⟩
      simp only [unionMessages]
      rw [if_neg h, hr, List.append_assoc]

theorem mem_live_union (x : ChatMessage) (live : List ChatMessage)
    (cached : List CachedMessage) (hx : x ∈ live) : x ∈ unionMessages live cached := by
  obtain ⟨r, hr⟩ := unionMessages_exists_rest cached live
  rw [hr]
  exact List.mem_append_left r hx

theorem mem_union (x : ChatMessage) (cached : List CachedMessage) :
    ∀ acc, x ∈ unionMessages acc cached →
      x ∈ acc ∨ ∃ c ∈ cached, x = cachedToChat c := by
  induction cached with
  | nil =>
    intro acc h
    exact Or.inl h
  | cons c cs ih =>
    intro acc h
    simp only [unionMessages] at h
    by_cases hc : (acc.any (fun m => m.id == c.id)) = true
    · rw [if_pos hc] at h
      rcases ih acc h with h1 | ⟨d, hd, hx⟩
      · exact Or.inl h1
      · exact Or.inr ⟨d, List.mem_cons_of_mem c hd, hx⟩
    · rw [if_neg hc] at h
      rcases ih _ h with h1 | ⟨d, hd, hx⟩
      · rcases List.mem_append.mp h1 with h2 | h2
        · exact Or.inl h2
        · have hxc : x = cachedToChat c := by simpa using h2
          exact Or.inr ⟨c, List.mem_cons_self c cs, hxc⟩
      · exact Or.inr ⟨d, List.mem_cons_of_mem c hd, hx⟩

theorem mem_msgIds_union (i : String) (cached : List CachedMessage) :
    ∀ acc, i ∈ msgIds (unionMessages acc cached) ↔ i ∈ msgIds acc ∨ i ∈ cachedIds cached := by
  induction cached with
  | nil =>
    intro acc
    simp [unionMessages, cachedIds]
  | cons c cs ih =>
    intro acc
    simp only [unionMessages]
    by_cases hc : (acc.any (fun m => m.id == c.id)) = true
    · rw [if_pos hc, ih]
      have hcid : c.id ∈ msgIds acc := by
        obtain ⟨m, hm, hbeq⟩ := List.any_eq_true.mp hc
        have hmc : m.id = c.id := beq_iff_eq.mp hbeq
        exact hmc ▸ List.mem_map.mpr ⟨m, hm, rfl⟩
      constructor
      · rintro (h | h)
        · exact Or.inl h
        · right
          simp only [cachedIds, List.map_cons, List.mem_cons]
          exact Or.inr (by simpa [cachedIds] using h)
      · rintro (h | h)
        · exact Or.inl h
        · rcases (by simpa [cachedIds] using h : i = c.id ∨ i ∈ cachedIds cs) with h2 | h2
          · exact Or.inl (h2 ▸ hcid)
          · exact Or.inr h2
    · rw [if_neg hc, ih]
      simp only [msgIds, cachedIds, List.map_append, List.map_cons, List.map_nil,
        List.mem_append, List.mem_cons, List.mem_singleton]
      tauto

theorem union_ids_nodup (cached : List CachedMessage) :
    ∀ acc, (msgIds acc).Nodup → (msgIds (unionMessages acc cached)).Nodup := by
  induction cached with
  | nil =>
    intro acc h
    exact h
  | cons c cs ih =>
    intro acc h
    simp only [unionMessages]
    by_cases hc : (acc.any (fun m => m.id == c.id)) = true
    · rw [if_pos hc]
      exact ih acc h
    · rw [if_neg hc]
      apply ih
      have hnotin : c.id ∉ msgIds acc := by
        intro hin
        apply hc
        obtain ⟨m, hm, hid⟩ := List.mem_map.mp (by simpa [msgIds] using hin)
        exact List.any_eq_true.mpr ⟨m, hm, beq_iff_eq.mpr hid⟩
      have hids : msgIds (acc ++ [cachedToChat c]) = msgIds acc ++ [c.id] := by
        simp [msgIds, cachedToChat]
      rw [hids]
      simp [List.nodup_append, h, hnotin]

theorem msgIds_map_enhance (u l : List ChatMessage) :
    msgIds (l.map (enhanceMsg u)) = msgIds l := by
  unfold msgIds
  rw [List.map_map]
  exact List.map_congr_left (fun m _ => enhanceMsg_id u m)

theorem mem_enrich_iff (live : List ChatMessage) (cached : List CachedMessage)
    (q : ChatMessage) :
    q ∈ enrich live cached ↔
      q ∈ (unionMessages live cached).map (enhanceMsg (unionMessages live cached)) := by
  unfold enrich
  exact (List.perm_insertionSort leTs _).mem_iff

theorem enrich_perm (live : List ChatMessage) (cached : List CachedMessage) :
    (enrich live cached).Perm
      ((unionMessages live cached).map (enhanceMsg (unionMessages live cached))) := by
  unfold enrich
  exact List.perm_insertionSort leTs _

theorem enrich_sorted (live : List ChatMessage) (cached : List CachedMessage) :
    List.Sorted leTs (enrich live cached) := by
  unfold enrich
  exact List.sorted_insertionSort leTs _

theorem enrich_ids_nodup (live : List ChatMessage) (cached : List CachedMessage)
    (hnd : (msgIds live).Nodup) : (msgIds (enrich live cached)).Nodup := by
  have hidsPerm : (msgIds (enrich live cached)).Perm
      (msgIds ((unionMessages live cached).map (enhanceMsg (unionMessages live cached)))) :=
    List.Perm.map _ (enrich_perm live cached)
  apply hidsPerm.symm.nodup
  rw [msgIds_map_enhance]
  exact union_ids_nodup cached live hnd

theorem orderedInsert_filter_ts (t : Int) (x : ChatMessage) (l : List ChatMessage) :
    (List.orderedInsert leTs x l).filter (fun m => m.timestamp == t) =
      (if x.timestamp == t
       then x :: l.filter (fun m => m.timestamp == t)
       else l.filter (fun m => m.timestamp == t)) := by
  induction l with
  | nil =>
    cases hx : (x.timestamp == t) <;> simp [List.orderedInsert, List.filter, hx]
  | cons b bs ih =>
    by_cases hle : leTs x b
    · rw [List.orderedInsert_of_le leTs bs hle]
      cases hx : (x.timestamp == t) <;> simp [List.filter_cons, hx]
    · have hstep : List.orderedInsert leTs x (b :: bs) =
          b :: List.orderedInsert leTs x bs := by
        simp only [List.orderedInsert]
        rw [if_neg hle]
      rw [hstep]
      cases hx : (x.timestamp == t) <;> cases hb : (b.timestamp == t)
      · simp [List.filter_cons, hx, hb, ih]
      · simp [List.filter_cons, hx, hb, ih]
      · simp [List.filter_cons, hx, hb, ih]
      · exfalso
        apply hle
        show x.timestamp ≤ b.timestamp
        rw [beq_iff_eq.mp hx, beq_iff_eq.mp hb]

theorem insertionSort_filter_ts (t : Int) (l : List ChatMessage) :
    (List.insertionSort leTs l).filter (fun m => m.timestamp == t) =
      l.filter (fun m => m.timestamp == t) := by
  induction l with
  | nil => rfl
  | cons x xs ih =>
    show (List.orderedInsert leTs x (List.insertionSort leTs xs)).filter
        (fun m => m.timestamp == t) = _
    rw [orderedInsert_filter_ts, ih, List.filter_cons]

/-- Claim C6: the enrichment output is sorted by nondecreasing timestamp, and
ties keep their pre-sort relative order: for every timestamp value, filtering
the output at that timestamp equals filtering the unsorted enhanced union at
it, which is the stability of the sort step. -/
theorem claim_C6_sorted_stable (live : List ChatMessage) (cached : List CachedMessage) :
    List.Sorted leTs (enrich live cached) ∧
    ∀ t : Int,
      (enrich live cached).filter (fun m => m.timestamp == t) =
        ((unionMessages live cached).map (enhanceMsg (unionMessages live cached))).filter
          (fun m => m.timestamp == t) := by
  constructor
  · exact enrich_sorted live cached
  · intro t
    unfold enrich
    exact insertionSort_filter_ts t _

/-- Claim C1, amended: provided the live messages carry pairwise distinct ids,
the enrichment output has exactly one entry per distinct id drawn from the
two inputs, and for every live message, in particular for every id shared
with the cache, the output entry with that id is the live version up to the
derived replyToSnapshot field, which the pass may recompute. -/
theorem claim_C1_dedup_union (live : List ChatMessage) (cached : List CachedMessage)
    (hnd : (msgIds live).Nodup) :
    (msgIds (enrich live cached)).Nodup ∧
    (∀ i : String,
      i ∈ msgIds (enrich live cached) ↔ i ∈ msgIds live ∨ i ∈ cachedIds cached) ∧
    (∀ m ∈ live, ∃ q ∈ enrich live cached, q.id = m.id ∧ stripSnap q = stripSnap m) := by
  refine ⟨enrich_ids_nodup live cached hnd, ?_, ?_⟩
  · intro i
    have hidsPerm : (msgIds (enrich live cached)).Perm
        (msgIds ((unionMessages live cached).map (enhanceMsg (unionMessages live cached)))) :=
      List.Perm.map _ (enrich_perm live cached)
    rw [hidsPerm.mem_iff, msgIds_map_enhance]
    exact mem_msgIds_union i cached live
  · intro m hm
    refine ⟨enhanceMsg (unionMessages live cached) m, ?_, enhanceMsg_id _ _,
      stripSnap_enhanceMsg _ _⟩
    exact (mem_enrich_iff live cached _).mpr
      (List.mem_map_of_mem _ (mem_live_union m live cached hm))

/-- Concrete live input for the C1 witness: distinct ids, one reply link. -/
def c1live : List ChatMessage :=
  [mkMsg ("a") ("u") ("x") 5, { mkMsg ("b") ("v") ("z") 10 with replyTo := some ("a") }]

/-- Concrete cached input for the C1 witness: shares id a with the live list. -/
def c1cached : List CachedMessage := [mkCached ("a") ("w") ("y") 3]

/-- Witness for C1 at a concrete input with a shared id. -/
theorem claim_C1_dedup_union_witness :
    (msgIds (enrich c1live c1cached)).Nodup ∧
    (∀ i : String,
      i ∈ msgIds (enrich c1live c1cached) ↔ i ∈ msgIds c1live ∨ i ∈ cachedIds c1cached) ∧
    (∀ m ∈ c1live, ∃ q ∈ enrich c1live c1cached, q.id = m.id ∧ stripSnap q = stripSnap m) :=
  claim_C1_dedup_union c1live c1cached (by decide)

/-- Live input breaking C1 as stated: two live entries share the id a, and
the live entry with id b is a reply that gets a snapshot attached. -/
def c1badLive : List ChatMessage :=
  [mkMsg ("a") ("u") ("x") 5, mkMsg ("a") ("u") ("y") 3,
   { mkMsg ("b") ("v") ("z") 10 with replyTo := some ("a") }]

/-- Cached input breaking C1 as stated: shares id b with the live list. -/
def c1badCached : List CachedMessage := [mkCached ("b") ("w") ("q") 7]

/-- Counterexample for C1 as stated: the output keeps both live entries with
the duplicate id a, and the output entry for the shared id b equals no input
live message, because the pass attached a snapshot to it. -/
theorem claim_C1_dedup_union_counterexample :
    ¬ (msgIds (enrich c1badLive c1badCached)).Nodup ∧
    (("b") ∈ msgIds c1badLive ∧ ("b") ∈ cachedIds c1badCached) ∧
    (∀ q ∈ enrich c1badLive c1badCached, q.id = ("b") → ∀ m ∈ c1badLive, q ≠ m) := by
  decide

theorem union_no_snapshots (live : List ChatMessage) (cached : List CachedMessage)
    (hlive : ∀ m ∈ live, m.replyToMessage = none)
    (hcached : ∀ c ∈ cached, c.replyToMessage = none) :
    ∀ x ∈ unionMessages live cached, x.replyToMessage = none := by
  intro x hx
  rcases mem_union x cached live hx with h | ⟨c, hc, hxc⟩
  · exact hlive x h
  · rw [hxc]
    exact hcached c hc

/-- Claim C2, amended: provided no input message carries a pre-existing
snapshot, a message in the enrichment output carries a snapshot exactly when
its replyTo holds a non-empty id of some message in the union of live and
cached messages at enrichment time; and a live message whose reference is
absent, empty, or unresolved passes into the output unchanged, with no
snapshot. -/
theorem claim_C2_reply_resolution (live : List ChatMessage) (cached : List CachedMessage)
    (hlive : ∀ m ∈ live, m.replyToMessage = none)
    (hcached : ∀ c ∈ cached, c.replyToMessage = none) :
    (∀ q ∈ enrich live cached,
      q.replyToMessage.isSome = true ↔
        ∃ r, q.replyTo = some r ∧ r ≠ "" ∧ r ∈ msgIds (unionMessages live cached)) ∧
    (∀ m ∈ live,
      (∀ r, m.replyTo = some r → r = "" ∨ r ∉ msgIds (unionMessages live cached)) →
      m ∈ enrich live cached) := by
  have hu := union_no_snapshots live cached hlive hcached
  constructor
  · intro q hq
    obtain ⟨m, hm, hqm⟩ := List.mem_map.mp ((mem_enrich_iff live cached q).mp hq)
    have hqR : q.replyTo = m.replyTo := by
      rw [← hqm, enhanceMsg_replyTo]
    cases hR : m.replyTo with
    | none =>
      have hqmm : q = m := by
        rw [← hqm]
        unfold enhanceMsg
        rw [hR]
      constructor
      · intro hS
        rw [hqmm, hu m hm] at hS
        cases hS
      · rintro ⟨r, hr, _, _⟩
        rw [hqR, hR] at hr
        cases hr
    | some r =>
      by_cases hre : r = ""
      · have hqmm : q = m := by
          rw [← hqm]
          unfold enhanceMsg
          rw [hR]
          simp [hre]
        constructor
        · intro hS
          rw [hqmm, hu m hm] at hS
          cases hS
        · rintro ⟨r2, hr2, hr2e, _⟩
          rw [hqR, hR] at hr2
          cases hr2
          exact absurd hre hr2e
      · cases hmg : mapGet (unionMessages live cached) r with
        | none =>
          have hqmm : q = m := by
            rw [← hqm]
            unfold enhanceMsg
            rw [hR]
            simp [hre, hmg]
          constructor
          · intro hS
            rw [hqmm, hu m hm] at hS
            cases hS
          · rintro ⟨r2, hr2, hr2e, hr2mem⟩
            rw [hqR, hR] at hr2
            cases hr2
            obtain ⟨x, hxin, hxid⟩ := List.mem_map.mp hr2mem
            exact absurd hxid ((mapGet_eq_none_iff _ _).mp hmg x hxin)
        | some tgt =>
          have hqform : q = { m with replyToMessage := some (mkSnapshot tgt) } := by
            rw [← hqm]
            unfold enhanceMsg
            rw [hR]
            simp [hre, hmg]
          constructor
          · intro _
            obtain ⟨htgtMem, htgtId⟩ := mapGet_some_mem hmg
            exact ⟨r, by rw [hqR, hR], hre,
              htgtId ▸ List.mem_map_of_mem _ htgtMem⟩
          · intro _
            rw [hqform]
            rfl
  · intro m hm hcond
    have hfix : enhanceMsg (unionMessages live cached) m = m := by
      unfold enhanceMsg
      cases hR : m.replyTo with
      | none => rfl
      | some r =>
        by_cases hre : r = ""
        · simp [hre]
        · rcases hcond r hR with h1 | h1
          · exact absurd h1 hre
          · have hnone : mapGet (unionMessages live cached) r = none :=
              (mapGet_eq_none_iff _ _).mpr
                (fun x hx hxr => h1 (hxr ▸ List.mem_map_of_mem _ hx))
            simp [hre, hnone]
    rw [← hfix]
    exact (mem_enrich_iff live cached _).mpr
      (List.mem_map_of_mem _ (mem_live_union m live cached hm))

/-- Concrete live input for the C2 witness: one reply whose target is absent. -/
def c2live : List ChatMessage := [{ mkMsg ("b") ("v") ("z") 10 with replyTo := some ("a") }]

/-- Witness for C2: a lone reply with an absent target resolves to no
snapshot and passes through unchanged. -/
theorem claim_C2_reply_resolution_witness :
    (∀ q ∈ enrich c2live [],
      q.replyToMessage.isSome = true ↔
        ∃ r, q.replyTo = some r ∧ r ≠ "" ∧ r ∈ msgIds (unionMessages c2live [])) ∧
    (∀ m ∈ c2live,
      (∀ r, m.replyTo = some r → r = "" ∨ r ∉ msgIds (unionMessages c2live [])) →
      m ∈ enrich c2live []) :=
  claim_C2_reply_resolution c2live [] (by decide) (by decide)

/-- Live input breaking C2 as stated: a message carrying a stale snapshot
with no replyTo, and a reply whose replyTo is the empty string while a
message with the empty id is present in the union. -/
def c2bad : List ChatMessage :=
  [{ mkMsg ("m") ("u") ("c") 0 with replyToMessage := some ⟨("q"), ("w"), ("e"), 1⟩ },
   mkMsg ("") ("u") ("n") 1,
   { mkMsg ("p") ("u") ("d") 2 with replyTo := some ("") }]

/-- Counterexample for C2 as stated: the stale snapshot survives although no
replyTo is set, and the empty-string reference is never resolved although a
message with that id exists in the union, so the stated equivalence fails. -/
theorem claim_C2_reply_resolution_counterexample :
    ¬ (∀ q ∈ enrich c2bad [],
        q.replyToMessage.isSome = true ↔
          ∃ r ∈ msgIds (unionMessages c2bad []), q.replyTo = some r) := by
  decide

theorem map_id_of_forall {α : Type} (l : List α) (f : α → α)
    (h : ∀ x ∈ l, f x = x) : l.map f = l := by
  induction l with
  | nil => rfl
  | cons a as ih =>
    rw [List.map_cons, h a (List.mem_cons_self a as),
      ih (fun x hx => h x (List.mem_cons_of_mem a hx))]

theorem enhance_fix_out (live : List ChatMessage) (cached : List CachedMessage)
    (hnd : (msgIds live).Nodup) :
    ∀ q ∈ enrich live cached, enhanceMsg (enrich live cached) q = q := by
  intro q hq
  obtain ⟨m, hm, hqm⟩ := List.mem_map.mp ((mem_enrich_iff live cached q).mp hq)
  cases hR : q.replyTo with
  | none =>
    unfold enhanceMsg
    rw [hR]
  | some r =>
    by_cases hre : r = ""
    · unfold enhanceMsg
      rw [hR]
      simp [hre]
    · have hRm : m.replyTo = some r := by
        rw [← enhanceMsg_replyTo (unionMessages live cached) m, hqm, hR]
      cases hmg : mapGet (unionMessages live cached) r with
      | none =>
        have hnone2 : mapGet (enrich live cached) r = none := by
          apply (mapGet_eq_none_iff _ _).mpr
          intro x hx hxr
          obtain ⟨m2, hm2, hxm2⟩ := List.mem_map.mp ((mem_enrich_iff live cached x).mp hx)
          apply (mapGet_eq_none_iff (unionMessages live cached) r).mp hmg m2 hm2
          rw [← hxm2, enhanceMsg_id] at hxr
          exact hxr
        unfold enhanceMsg
        rw [hR]
        simp [hre, hnone2]
      | some tgt =>
        obtain ⟨htgtMem, htgtId⟩ := mapGet_some_mem hmg
        have htgtOut : enhanceMsg (unionMessages live cached) tgt ∈ enrich live cached :=
          (mem_enrich_iff live cached _).mpr (List.mem_map_of_mem _ htgtMem)
        have houtNodup : (msgIds (enrich live cached)).Nodup :=
          enrich_ids_nodup live cached hnd
        have hmg2 : mapGet (enrich live cached) r =
            some (enhanceMsg (unionMessages live cached) tgt) :=
          mapGet_of_nodup houtNodup htgtOut (by rw [enhanceMsg_id]; exact htgtId)
        have hsnap : mkSnapshot (enhanceMsg (unionMessages live cached) tgt) =
            mkSnapshot tgt := by
          unfold mkSnapshot
          rw [enhanceMsg_id, enhanceMsg_senderAlias, enhanceMsg_content,
            enhanceMsg_timestamp]
        have hqform : q = { m with replyToMessage := some (mkSnapshot tgt) } := by
          rw [← hqm]
          unfold enhanceMsg
          rw [hRm]
          simp [hre, hmg]
        unfold enhanceMsg
        rw [hR]
        simp only [hre, hmg2, if_neg]
        rw [hsnap, hqform]
        simp [hRm]

theorem enrich_self_nil (l : List ChatMessage)
    (hsort : List.Sorted leTs l) (hfix : ∀ q ∈ l, enhanceMsg l q = q) :
    enrich l [] = l := by
  show List.insertionSort leTs ((unionMessages l []).map (enhanceMsg (unionMessages l []))) = l
  have hun : unionMessages l [] = l := rfl
  rw [hun, map_id_of_forall l _ hfix]
  exact hsort.insertionSort_eq

/-- Claim C5, amended: provided the live input ids are pairwise distinct,
re-running the enrichment pass on its own output, taken as the live input
with an empty cache, returns that output unchanged: the derived snapshots are
recomputed from replyTo and the recomputation reproduces them. -/
theorem claim_C5_enrich_idempotent (live : List ChatMessage) (cached : List CachedMessage)
    (hnd : (msgIds live).Nodup) :
    enrich (enrich live cached) [] = enrich live cached :=
  enrich_self_nil (enrich live cached) (enrich_sorted live cached)
    (enhance_fix_out live cached hnd)

/-- Concrete live input for the C5 witness. -/
def c5live : List ChatMessage :=
  [mkMsg ("a") ("u") ("x") 5, { mkMsg ("b") ("v") ("z") 10 with replyTo := some ("a") }]

/-- Concrete cached input for the C5 witness. -/
def c5cached : List CachedMessage := [mkCached ("c") ("w") ("y") 3]

/-- Witness for C5 at a concrete input with a resolvable reply. -/
theorem claim_C5_enrich_idempotent_witness :
    enrich (enrich c5live c5cached) [] = enrich c5live c5cached :=
  claim_C5_enrich_idempotent c5live c5cached (by decide)

/-- Live input breaking C5 as stated: two entries share the id a with
different contents and out-of-order timestamps, and a reply references that
id; sorting reorders the duplicates, so the second pass resolves the reply to
the other duplicate and the snapshot changes. -/
def c5badLive : List ChatMessage :=
  [mkMsg ("a") ("u") ("x") 5, mkMsg ("a") ("u") ("y") 3,
   { mkMsg ("b") ("v") ("z") 10 with replyTo := some ("a") }]

/-- Counterexample for C5 as stated: re-enriching the enriched sequence is
not the identity on this input. -/
theorem claim_C5_enrich_idempotent_counterexample :
    enrich (enrich c5badLive []) [] ≠ enrich c5badLive [] := by
  decide
